import Mathlib

/-!
Verification development for the `orchestrator` repository.

The Python sources are shallowly embedded: pure functions become Lean
functions, the OS / git / LLM collaborators become explicit oracle
structures, and the agent loops become recursive functions over explicit
state records driven by an oracle of remote replies.
-/

set_option maxHeartbeats 1000000

/-- Decidable equality for `Except`, needed to evaluate the embedded
fallible operations on concrete inputs. -/
instance {ε α : Type} [DecidableEq ε] [DecidableEq α] : DecidableEq (Except ε α) := fun a b =>
  match a, b with
  | .error e1, .error e2 =>
    match decEq e1 e2 with
    | isTrue h => isTrue (by rw [h])
    | isFalse h => isFalse (fun hh => by cases hh; exact h rfl)
  | .error _, .ok _ => isFalse (fun hh => Except.noConfusion hh)
  | .ok _, .error _ => isFalse (fun hh => Except.noConfusion hh)
  | .ok a1, .ok a2 =>
    match decEq a1 a2 with
    | isTrue h => isTrue (by rw [h])
    | isFalse h => isFalse (fun hh => by cases hh; exact h rfl)

namespace Orchestrator

/-
String primitives are re-implemented over `List Char` by structural
recursion, so that every definition evaluates inside the kernel (the
core `String` loops do not reduce there).
-/

/-- `s.startswith(pre)`. -/
def strStartsWith (s pre : String) : Bool :=
  pre.data.isPrefixOf s.data

/-- `s.endswith(suf)`. -/
def strEndsWith (s suf : String) : Bool :=
  suf.data.reverse.isPrefixOf s.data.reverse

/-- `s[n:]`. -/
def strDrop (s : String) (n : Nat) : String :=
  String.mk (s.data.drop n)

/-- Python `s.strip()`: remove leading and trailing whitespace. -/
def strTrim (s : String) : String :=
  String.mk (((s.data.dropWhile Char.isWhitespace).reverse.dropWhile Char.isWhitespace).reverse)

/-- `sep.join(parts)`. -/
def strIntercalate (sep : String) : List String → String
  | [] => ""
  | [x] => x
  | x :: y :: rest => x ++ sep ++ strIntercalate sep (y :: rest)

/-- Split a character list at every occurrence of `sep` (all separators
used below are single characters). -/
def splitOnChar (sep : Char) : List Char → List (List Char)
  | [] => [[]]
  | c :: rest =>
    match splitOnChar sep rest with
    | [] => [[c]]
    | h :: t => if c == sep then [] :: h :: t else (c :: h) :: t

/-- Substring occurrence on character lists: `needle` is a prefix of some
suffix of `hay`. -/
def listInfix (needle : List Char) : List Char → Bool
  | [] => needle.isEmpty
  | c :: t => needle.isPrefixOf (c :: t) || listInfix needle t

/-- Python `needle in hay` substring test on strings. -/
def pyIn (needle hay : String) : Bool :=
  listInfix needle.data hay.data

/-- Python `s.replace(pat, rep)` on character lists (left-to-right,
non-overlapping; an empty pattern is left alone). -/
def listReplace (pat rep : List Char) : List Char → List Char
  | [] => []
  | c :: rest =>
    if pat ≠ [] ∧ pat.isPrefixOf (c :: rest) then
      rep ++ listReplace pat rep ((c :: rest).drop pat.length)
    else c :: listReplace pat rep rest
termination_by s => s.length
decreasing_by
  · rename_i hp
    have : pat.length ≥ 1 := by
      cases pat with
      | nil => exact absurd rfl hp.1
      | cons a b => simp
    simp [List.length_drop]
    omega
  · simp

/-- Python `os.path.join(p, name)` for a plain (non-absolute) `name`. -/
def pyJoin (p name : String) : String :=
  if strEndsWith p "/" then p ++ name else p ++ "/" ++ name

/-- `EXCLUDED_DIRS` from `bash_tools.py`. -/
def EXCLUDED_DIRS : List String :=
  [".git", ".venv", "logs", "__pycache__", "*.pyc", "*.egg-info"]

/-- The sentinel returned by the sandboxed accessors for rejected paths. -/
def FORBIDDEN : String := "<FORBIDDEN>"

/-- Oracle for the OS facilities used by `bash_tools.py`.  `realpath p = none`
models `os.path.realpath` raising `ValueError`/`OSError`; `cwdReal` is
`os.path.realpath(os.getcwd())` (again `none` models a raised error).
`walk` yields the `(root, files)` pairs actually visited by `os.walk`
after the in-place pruning of excluded directories performed by `tree`. -/
structure FS where
  isfile : String → Bool
  isdir : String → Bool
  realpath : String → Option String
  cwdReal : Option String
  listdir : String → List String
  readFile : String → String
  walk : String → List (String × List String)

/-- The sandbox guard shared by `ls`, `cat`, `tree` and `grep`:
`not abs_path.startswith(abs_cwd + os.sep) and abs_path != abs_cwd`
(after `os.path.realpath` on both sides), with a raised path error
treated as forbidden.  Returns `true` when the path must be rejected. -/
def outsideRoot (fs : FS) (path : String) : Bool :=
  match fs.realpath path, fs.cwdReal with
  | some ap, some ac => !(strStartsWith ap (ac ++ "/")) && ap != ac
  | _, _ => true

/-- One entry of the `ls` listing: directories get a trailing `/`,
files are bare, anything else is tagged `(unknown)`. -/
def lsItem (fs : FS) (path item : String) : String :=
  if fs.isdir (pyJoin path item) then item ++ "/"
  else if fs.isfile (pyJoin path item) then item
  else item ++ " (unknown)"

/-- `bash_tools.ls`: an existing file is returned as-is; a non-directory is
rejected; otherwise the sandbox guard runs and, when it passes, the
immediate children are listed with the excluded-substring filter. -/
def ls (fs : FS) (path : String) : String :=
  if fs.isfile path then path
  else if !(fs.isdir path) then FORBIDDEN
  else if outsideRoot fs path then FORBIDDEN
  else
    let items := (fs.listdir path).filter
      (fun item => !(EXCLUDED_DIRS.any (fun ex => pyIn ex (pyJoin path item))))
    strIntercalate "\n" (items.map (lsItem fs path))

/-- `bash_tools.cat`: rejects non-files, then runs the sandbox guard, then
returns the file's text. -/
def cat (fs : FS) (path : String) : String :=
  if !(fs.isfile path) then FORBIDDEN
  else if outsideRoot fs path then FORBIDDEN
  else fs.readFile path

/-- Python `root.replace(path, "").count(os.sep)`: the nesting level
computation inside `tree`. -/
def treeLevel (path root : String) : Nat :=
  ((listReplace path.data [] root.data).filter (fun c => c = '/')).length

/-- The body of `tree` after the guard: walk the tree, skip roots deeper
than `depth`, indent by four spaces per level, and list files that do not
contain an excluded substring. -/
def treeBody (fs : FS) (path : String) (depth : Int) : String :=
  let pieces := (fs.walk path).foldl (fun acc rf =>
    let root := rf.1
    let files := rf.2
    let level := treeLevel path root
    if (level : Int) > depth then acc
    else
      let indent := String.join (List.replicate (4 * level) " ")
      let base := String.mk (((splitOnChar '/' root.data).map id).getLast! )
      let fileLines := (files.filter
        (fun f => !(EXCLUDED_DIRS.any (fun ex => pyIn ex f)))).map
        (fun f => indent ++ "    " ++ f)
      acc ++ [indent ++ base ++ "/"] ++ fileLines) []
  strIntercalate "\n" pieces

/-- `bash_tools.tree`: a negative depth yields `""` before any check; a
non-directory is rejected; then the sandbox guard runs, and on success the
breadth-limited walk is rendered. -/
def tree (fs : FS) (path : String) (depth : Int) : String :=
  if depth < 0 then ""
  else if !(fs.isdir path) then FORBIDDEN
  else if outsideRoot fs path then FORBIDDEN
  else treeBody fs path depth

/-! ## Backlog scheduler (`main.py`) -/

/-- The `Task` dataclass from `main.py`. -/
structure Task where
  id : String
  title : String
  description : String
  deps : List String
  status : String
  type : String
deriving Repr, DecidableEq

/-- `main.pick_next_ready`: the first task in declaration order whose
status is `"ready"` and whose every dependency is in `done_ids`. -/
def pick_next_ready : List Task → List String → Option Task
  | [], _ => none
  | t :: ts, done_ids =>
    if !(t.status == "ready") then pick_next_ready ts done_ids
    else if t.deps.all (fun dep => done_ids.contains dep) then some t
    else pick_next_ready ts done_ids

/-! ## Proposal validation (`proposals.py`) -/

/-- The `ProposedFile` dataclass. -/
structure ProposedFile where
  path : String
  content : String
deriving Repr, DecidableEq

/-- The `Proposal` dataclass. -/
structure Proposal where
  files : List ProposedFile
  problems : List String
deriving Repr, DecidableEq

/-- Oracle for `pathlib.Path.resolve()`: maps the textual path obtained by
joining `repo` with a relative path to its resolved absolute form. -/
structure Resolver where
  resolve : String → String

/-- `proposals.validate_docs_only`: raise `ValueError` at the first
proposed file whose resolved path does not start (as a string) with the
resolved path of `repo/docs`. -/
def validate_docs_only (rv : Resolver) (repo : String) : List ProposedFile → Except String Unit
  | [] => .ok ()
  | f :: fs =>
    if !(strStartsWith (rv.resolve (pyJoin repo f.path)) (rv.resolve (pyJoin repo "docs"))) then
      .error ("Proposed path outside docs/: " ++ f.path)
    else validate_docs_only rv repo fs

/-- `proposals.validate_allowed_prefixes`: raise `ValueError` at the first
proposed file whose resolved path starts with none of the resolved
allowed roots. -/
def validate_allowed_prefixes (rv : Resolver) (repo : String) (prefixes : List String) :
    List ProposedFile → Except String Unit
  | [] => .ok ()
  | f :: fs =>
    if !(prefixes.any (fun pre =>
        strStartsWith (rv.resolve (pyJoin repo f.path)) (rv.resolve (pyJoin repo pre)))) then
      .error ("Proposed path not allowed: " ++ f.path)
    else validate_allowed_prefixes rv repo prefixes fs

/-! ## Diff-size gate at the end of `main`'s run pipeline -/

/-- Python `str.isdigit()` restricted to ASCII digits, as produced by
`git diff --numstat`. -/
def pyIsDigit (s : String) : Bool :=
  !s.data.isEmpty && s.data.all Char.isDigit

/-- Value of `int(s)` for a string that passed `isdigit()`. -/
def digitsVal (s : String) : Nat :=
  s.data.foldl (fun acc c => 10 * acc + (c.toNat - 48)) 0

/-- Python `line.split("\t", 2)`: split on tab at most twice, the last
piece keeping any further tabs. -/
def pySplitTab2 (line : String) : List String :=
  match (splitOnChar '\t' line.data).map String.mk with
  | a :: b :: c :: rest => [a, b, strIntercalate "\t" (c :: rest)]
  | parts => parts

/-- Python `str.splitlines()` for LF-separated text, as produced by git. -/
def pySplitlines (s : String) : List String :=
  if s.data.isEmpty then []
  else
    let parts := (splitOnChar '\n' s.data).map String.mk
    if parts.getLast? = some "" then parts.dropLast else parts

/-- The added/deleted accumulation over `diff --numstat` output in `main`:
each line is split on tabs into `a, d, path` (a malformed line raises
`ValueError`, modelled as `Except.error`), and `a`/`d` are added to the
running sums when they pass `isdigit()`. -/
def sumNumstat (numstat : String) : Except Unit (Nat × Nat) :=
  (pySplitlines numstat).foldlM (fun acc line =>
    match pySplitTab2 line with
    | [a, d, _path] =>
      .ok (acc.1 + (if pyIsDigit a then digitsVal a else 0),
           acc.2 + (if pyIsDigit d then digitsVal d else 0))
    | _ => .error ()) (0, 0)

/-- The externally visible effects of the tail of `main`'s run pipeline
(after all checks passed): problems appended to `problems.yaml`, entries
appended to `done.yaml`, commits created, and the exit code. -/
structure RunTailEffects where
  problems : List (String × String × Bool)
  doneAppended : List (String × String)
  commits : List String
  exitCode : Int
deriving Repr, DecidableEq

/-- `main.py` lines 676–699: sum the numstat counts; if `added + deleted`
exceeds 300, append a blocking "Diff too large" problem and exit 7;
otherwise append the task to `done.yaml`, `git add -A` and commit
`"{task.id}: {task.title}"`, exiting 0.  A malformed numstat line
propagates as an error (an uncaught `ValueError`). -/
def runTail (taskId taskTitle : String) (numstat : String) : Except Unit RunTailEffects :=
  match sumNumstat numstat with
  | .error e => .error e
  | .ok (added, deleted) =>
    if added + deleted > 300 then
      .ok { problems := [(taskId, s!"Diff too large: {added}+{deleted} lines", true)],
            doneAppended := [], commits := [], exitCode := 7 }
    else
      .ok { problems := [], doneAppended := [(taskId, taskTitle)],
            commits := [taskId ++ ": " ++ taskTitle], exitCode := 0 }

/-! ## Patch Engine, hunk variant -/

/-- A line-range replacement hunk, per the data model: replace the
half-open 0-indexed range `[old_start, old_start + old_len)` with
`new_lines`. -/
structure Hunk where
  old_start : Nat
  old_len : Nat
  new_lines : List String
deriving Repr, DecidableEq

/-- Failure reasons of the hunk engine, naming the file and the offending
range(s). -/
inductive PatchError where
  | range (file : String) (old_start old_len : Nat)
  | overlap (file : String) (s1 l1 s2 l2 : Nat)
deriving Repr, DecidableEq

/-- A hunk is in bounds for the current content when
`old_start + old_len` does not exceed the line count. -/
def hunkInBounds (lines : List String) (h : Hunk) : Bool :=
  h.old_start + h.old_len ≤ lines.length

/-- Two hunks' old ranges `[s, s+l)` intersect. -/
def hunksOverlap (a b : Hunk) : Bool :=
  a.old_start < b.old_start + b.old_len && b.old_start < a.old_start + a.old_len

/-- No two hunks of the list have intersecting old ranges. -/
def noOverlaps : List Hunk → Bool
  | [] => true
  | h :: t => t.all (fun h2 => !hunksOverlap h h2) && noOverlaps t

/-- First out-of-range hunk, reported with the file name. -/
def firstRangeError (file : String) (lines : List String) (hs : List Hunk) : Option PatchError :=
  (hs.find? (fun h => !hunkInBounds lines h)).map
    (fun h => .range file h.old_start h.old_len)

/-- First intersecting pair of hunks, reported with the file name. -/
def firstOverlap (file : String) : List Hunk → Option PatchError
  | [] => none
  | h :: t =>
    match t.find? (fun h2 => hunksOverlap h h2) with
    | some h2 => some (.overlap file h.old_start h.old_len h2.old_start h2.old_len)
    | none => firstOverlap file t

/-- Insert a hunk into a list already sorted by `old_start` descending,
keeping earlier hunks first among equal starts. -/
def insertDesc (h : Hunk) : List Hunk → List Hunk
  | [] => [h]
  | h2 :: t => if h2.old_start ≤ h.old_start then h :: h2 :: t else h2 :: insertDesc h t

/-- Stable sort by `old_start` descending. -/
def sortByStartDesc (hs : List Hunk) : List Hunk :=
  hs.foldr insertDesc []

/-- Apply one hunk: slice the line array into `[0, old_start)`, the new
lines, and `[old_start + old_len, end)`, concatenated. -/
def applyOneHunk (lines : List String) (h : Hunk) : List String :=
  lines.take h.old_start ++ h.new_lines ++ lines.drop (h.old_start + h.old_len)

/-- Modelled from the spec: the Patch Engine's hunk variant (§4.3), absent
from `src/` (the sources only wrap the external `git apply` tool in
`git_ops.py`).  Validate every hunk's range against the current line
count, reject intersecting old ranges (reporting the file and the
offending range), then sort by `old_start` descending and apply each hunk
from the highest start to the lowest. -/
def applyHunks (file : String) (lines : List String) (hs : List Hunk) :
    Except PatchError (List String) :=
  match firstRangeError file lines hs with
  | some e => .error e
  | none =>
    match firstOverlap file hs with
    | some e => .error e
    | none => .ok ((sortByStartDesc hs).foldl applyOneHunk lines)

/-- The file named inside a `PatchError`. -/
def PatchError.file : PatchError → String
  | .range f _ _ => f
  | .overlap f _ _ _ _ => f

/-! ## Common agent-loop machinery -/

/-- Worker for whitespace splitting: `acc` holds the current word,
reversed. -/
def wsSplitAux : List Char → List Char → List (List Char)
  | [], acc => if acc.isEmpty then [] else [acc.reverse]
  | c :: rest, acc =>
    if c.isWhitespace then
      if acc.isEmpty then wsSplitAux rest [] else acc.reverse :: wsSplitAux rest []
    else wsSplitAux rest (c :: acc)

/-- Python `s.split()` with no argument: split on whitespace runs,
dropping empty pieces. -/
def pySplitWs (s : String) : List String :=
  (wsSplitAux s.data []).map String.mk

/-- Python `int(s)` on a string: optional surrounding whitespace, an
optional sign, then decimal digits; anything else raises (`none`). -/
def pyInt (s : String) : Option Int :=
  let t := strTrim s
  let neg := strStartsWith t "-"
  let core := if neg || strStartsWith t "+" then strDrop t 1 else t
  if core.data.isEmpty || !(core.data.all Char.isDigit) then none
  else some (if neg then -(digitsVal core : Int) else (digitsVal core : Int))

/-- Insertion-ordered dictionary update (Python `d[k] = v`): an existing
key is updated in place, a new key is appended at the end. -/
def dictSet : List (String × String) → String → String → List (String × String)
  | [], k, v => [(k, v)]
  | (k2, v2) :: t, k, v => if k2 = k then (k, v) :: t else (k2, v2) :: dictSet t k v

/-- Dictionary lookup (Python `d.get(k)`). -/
def dictGet : List (String × String) → String → Option String
  | [], _ => none
  | (k2, v2) :: t, k => if k2 = k then some v2 else dictGet t k

/-! ## Developer agent loop (`agents/developer.py`) -/

/-- One entry of a Complete reply's `changes` array. -/
structure Change where
  path : String
  patch : String
deriving Repr, DecidableEq

/-- The fields of a parsed developer reply that `execute_task` reads.
`status` models `response.get("status", "")`; the other fields model
`response["..."]` subscripts, where `none` means the key is absent and
the subscript raises `KeyError`. -/
structure DevJson where
  status : Option String
  changes : Option (List Change)
  commit_message : Option String
  commands : Option (List String)

/-- Outcome of `json.loads` on one raw remote reply: a
`json.JSONDecodeError` (with its message and the raw text), or a parsed
object. -/
inductive DevRaw where
  | malformed (err raw : String)
  | parsed (j : DevJson)

/-- External collaborators of the developer loop: the remote call (its
`k`-th reply), `git_ops.apply_diff_for_file` (`none` means git applied
the diff and wrote the file; `some e` is the captured stderr/stdout), and
the filesystem behind the sandboxed accessors. -/
structure DevOracle where
  reply : Nat → DevRaw
  applyDiff : String → String → Option String
  fs : FS

/-- The mutable state of one `Developer.execute_task` invocation:
the `context` dict sent to the remote call, the pending instruction, the
log files written so far (newest first), and the repo files rewritten by
successful `git apply` calls (in application order). -/
structure DevState where
  context : List (String × String)
  currentRequest : String
  logFiles : List (String × String)
  applied : List String
deriving Repr, DecidableEq

/-- Python truthiness of `apply_result`: a failure is acted on only when
the returned text is a non-empty string. -/
def applyFailed : Option String → Bool
  | none => false
  | some e => e ≠ ""

/-- Log text for a failed per-file diff application. -/
def applyFailLog (path err : String) : String :=
  "Failed to apply diff for " ++ path ++ ":\n" ++ err

/-- Corrective instruction for a failed per-file diff application. -/
def applyFailReq (path err : String) : String :=
  applyFailLog path err ++ "\nPlease fix the patch and ensure it can be applied cleanly."

/-- The `for change in response["changes"]` loop: apply each file's diff
in order; on the first truthy failure, log it, set the corrective
instruction and break (returning the failing path and error); on full
success return `none`.  Successful applications append the path to
`applied`; `s` is the value of `step` used in the log file names. -/
def applyChanges (applyDiff : String → String → Option String) (s : Nat) :
    DevState → List Change → DevState × Option (String × String)
  | st, [] => (st, none)
  | st, c :: cs =>
    match applyDiff c.path c.patch with
    | none => applyChanges applyDiff s { st with applied := st.applied ++ [c.path] } cs
    | some err =>
      if err ≠ "" then
        ({ st with
            logFiles := (s!"developer_{s}.txt", applyFailLog c.path err) :: st.logFiles,
            currentRequest := applyFailReq c.path err },
         some (c.path, err))
      else applyChanges applyDiff s st cs

/-- Abstract rendering of `json.dumps(response["changes"])`; the exact
JSON escaping is not modelled, only that the stored text is a function of
the changes. -/
def dumpsChanges (cs : List Change) : String :=
  "[" ++ strIntercalate ", "
    (cs.map (fun c =>
      "\x7b\"path\": \"" ++ c.path ++ "\", \"patch\": \"" ++ c.patch ++ "\"\x7d")) ++ "]"

/-- Abstract rendering of `log.write_json(..., \x7b"LLM Response": response\x7d)`. -/
def devRespLog (j : DevJson) : String :=
  "LLM Response: status=" ++ j.status.getD ""

/-- Log text for a `json.JSONDecodeError`. -/
def parseFailLog (err raw : String) : String :=
  "Failed to parse LLM response as JSON: " ++ err ++ "\nResponse was:\n" ++ raw

/-- Corrective instruction after a `json.JSONDecodeError`. -/
def parseFailReq (err : String) : String :=
  "Failed to parse your response as JSON: " ++ err ++
    "\nPlease ensure your response strictly follows the JSON schema and contains no extra text."

/-- Corrective instruction for an unknown `status` value. -/
def badStatusReq (status : String) : String :=
  "Invalid response status: " ++ status ++
    ". Add \x27status\x27 field with value \x27complete\x27 or \x27need_more_info\x27."

/-- The developer's terminal log line when the step budget is exceeded. -/
def devExceededMsg : String :=
  "Exceeded maximum number of steps without producing a valid implementation."

/-- The command-execution loop of the developer's `need_more_info`
branch: run each `ls`/`cat`/`tree` command against the sandboxed
accessors, record the result in the context under the command-derived
label, and log it; an unknown command, a malformed `tree` argument list
or a non-integer depth logs the failure, sets a corrective instruction
and breaks. -/
def devCmds (fs : FS) (s : Nat) : DevState → List String → DevState
  | st, [] => st
  | st, command :: rest =>
    if strStartsWith command "ls " then
      let path := strTrim (strDrop command 3)
      let r := ls fs path
      devCmds fs s
        { st with
            context := dictSet st.context ("LS_OUTPUT " ++ path) r,
            logFiles := (s!"developer_{s}.txt", "ls " ++ path ++ "\n" ++ r) :: st.logFiles } rest
    else if strStartsWith command "cat " then
      let path := strTrim (strDrop command 4)
      let r := cat fs path
      devCmds fs s
        { st with
            context := dictSet st.context ("CAT_OUTPUT " ++ path) r,
            logFiles := (s!"developer_{s}.txt", "cat " ++ path ++ "\n" ++ r) :: st.logFiles } rest
    else if strStartsWith command "tree " then
      match pySplitWs (strTrim (strDrop command 5)) with
      | [path, depthStr] =>
        match pyInt depthStr with
        | some depth =>
          let r := tree fs path depth
          devCmds fs s
            { st with
                context := dictSet st.context
                  ("TREE_OUTPUT " ++ path ++ " " ++ toString depth) r,
                logFiles := (s!"developer_{s}.txt",
                  "tree " ++ path ++ " " ++ toString depth ++ "\n" ++ r) :: st.logFiles } rest
        | none =>
          { st with
              logFiles := (s!"developer_{s}.txt",
                "Invalid depth in tree command: " ++ command) :: st.logFiles,
              currentRequest := "Invalid depth in tree command: " ++ command ++
                ". Depth must be an integer." }
      | _ =>
        { st with
            logFiles := (s!"developer_{s}.txt",
              "Invalid tree command: " ++ command) :: st.logFiles,
            currentRequest := "Invalid tree command: " ++ command ++
              ". Please use the format: tree <path> <depth>." }
    else
      { st with
          logFiles := (s!"developer_{s}.txt",
            "Invalid command: " ++ command) :: st.logFiles,
          currentRequest := "Invalid command: " ++ command ++
            ". Please use only the allowed commands: ls, cat, tree." }

/-- Terminal dispositions of `Developer.execute_task`: the Complete path
accepted a reply, the step budget was exceeded (recorded in
`developer_final.txt`), or an uncaught `KeyError` on a missing required
field of the reply. -/
inductive DevOutcome where
  | completed (st : DevState)
  | exceeded (st : DevState)
  | crashed (st : DevState)
deriving Repr, DecidableEq

/-- The state carried by a `DevOutcome`. -/
def DevOutcome.state : DevOutcome → DevState
  | .completed st => st
  | .exceeded st => st
  | .crashed st => st

/-- Whether the outcome is the Exceeded terminal. -/
def DevOutcome.isExceeded : DevOutcome → Bool
  | .exceeded _ => true
  | _ => false

/-- The `while True` loop of `Developer.execute_task`.  `s` is the value
of `step` after the increment at the top of the iteration (the loop
starts at `s = 0`); `k` counts remote calls.  On a parse failure the
counter advances by one, on a parsed reply by two (the extra
`step += 1` after the response log). -/
def devLoop (o : DevOracle) (k s : Nat) (st : DevState) : DevOutcome :=
  if _h100 : s > 100 then
    .exceeded { st with logFiles := ("developer_final.txt", devExceededMsg) :: st.logFiles }
  else
    match o.reply k with
    | .malformed err raw =>
      devLoop o (k + 1) (s + 1)
        { st with
            logFiles := (s!"developer_{s}.txt", parseFailLog err raw) :: st.logFiles,
            currentRequest := parseFailReq err }
    | .parsed j =>
      let st1 := { st with logFiles := (s!"developer_{s}.txt", devRespLog j) :: st.logFiles }
      if j.status.getD "" = "complete" then
        match j.changes with
        | none => .crashed st1
        | some cs =>
          match applyChanges o.applyDiff (s + 1) st1 cs with
          | (st2, some _) => devLoop o (k + 1) (s + 2) st2
          | (st2, none) =>
            match j.commit_message with
            | none => .crashed st2
            | some m =>
              .completed
                { st2 with
                    context := dictSet (dictSet st2.context "COMMIT_MESSAGE" m)
                      "DIFF_CONTENT" (dumpsChanges cs) }
      else if j.status.getD "" = "need_more_info" then
        match j.commands with
        | none => .crashed st1
        | some cmds => devLoop o (k + 1) (s + 2) (devCmds o.fs (s + 1) st1 cmds)
      else
        devLoop o (k + 1) (s + 2) { st1 with currentRequest := badStatusReq (j.status.getD "") }
termination_by 101 - s
decreasing_by all_goals omega

/-- `Developer.execute_task`: log the task, seed the context with it, and
run the loop from `step = 0` with the fixed initial instruction. -/
def execute_task (o : DevOracle) (task_description : String) : DevOutcome :=
  devLoop o 0 0
    { context := [("TASK", task_description)],
      currentRequest := "Solve the task",
      logFiles := [("developer_task.txt", task_description)],
      applied := [] }

/-! ## Reviewer agent loop (`agents/reviewer.py`, `execution_context.py`) -/

/-- JSON values as far as the reviewer's validation observes them.
Floats are not modelled; list/dict payloads are never inspected by the
validation code and are therefore elided. -/
inductive JVal where
  | jstr (s : String)
  | jint (n : Int)
  | jbool (b : Bool)
  | jnull
  | jlist
  | jdict
deriving Repr, DecidableEq

/-- Python `str()` of a `JVal`, as used by the summary f-string. -/
def pyStr : JVal → String
  | .jstr s => s
  | .jint n => toString n
  | .jbool true => "True"
  | .jbool false => "False"
  | .jnull => "None"
  | .jlist => "[...]"
  | .jdict => "\x7b...\x7d"

/-- `str()` of `c.get(key)` (`None` when the key is absent). -/
def pyStrOpt : Option JVal → String
  | some v => pyStr v
  | none => "None"

/-- The five required fields of a review-comment object; `none` means the
key is absent.  Extra keys are irrelevant to the validation. -/
structure RCFields where
  path : Option JVal
  start_line : Option JVal
  end_line : Option JVal
  comment : Option JVal
  severity : Option JVal
deriving Repr, DecidableEq

/-- One element of the `comments` array: either not a JSON object, or an
object with the recorded fields. -/
inductive CVal where
  | notObj (v : JVal)
  | obj (c : RCFields)
deriving Repr, DecidableEq

/-- The `comments` entry of a Complete reviewer reply:
`response.get("comments", [])` yields `[]` when absent; a present
non-list value is rejected by the validation. -/
inductive CommentsField where
  | absent
  | notList (v : JVal)
  | list (cs : List CVal)
deriving Repr, DecidableEq

/-- The comment keys (in Python's sorted order) missing from an object. -/
def missingKeys (c : RCFields) : List String :=
  (if c.comment.isNone then ["comment"] else []) ++
  (if c.end_line.isNone then ["end_line"] else []) ++
  (if c.path.isNone then ["path"] else []) ++
  (if c.severity.isNone then ["severity"] else []) ++
  (if c.start_line.isNone then ["start_line"] else [])

/-- Python `repr` of a list of strings, as interpolated into the
missing-keys message. -/
def pyListRepr (names : List String) : String :=
  "[" ++ strIntercalate ", " (names.map (fun n => "\x27" ++ n ++ "\x27")) ++ "]"

/-- `c.get("severity") in ("info", "warning", "error")`. -/
def sevOk : Option JVal → Bool
  | some (.jstr s) => s == "info" || s == "warning" || s == "error"
  | _ => false

/-- Whether Python `int(v)` succeeds on the value: true for ints and
bools, and for strings parsing as an integer; false otherwise (including
an absent key, where `int(None)` raises). -/
def intConvOk : Option JVal → Bool
  | some (.jint _) => true
  | some (.jbool _) => true
  | some (.jstr s) => (pyInt s).isSome
  | _ => false

/-- The per-comment validation loop of the reviewer's Complete branch,
with `i` the running index: reports the first invalid comment's message,
or `none` when all comments pass. -/
def validateList (i : Nat) : List CVal → Option String
  | [] => none
  | .notObj _ :: _ => some s!"Comment at index {i} is not an object"
  | .obj c :: rest =>
    if missingKeys c ≠ [] then
      some (s!"Comment at index {i} is missing keys: " ++ pyListRepr (missingKeys c))
    else if !sevOk c.severity then
      some (s!"Invalid severity in comment at index {i}: " ++ pyStrOpt c.severity)
    else if !(intConvOk c.start_line && intConvOk c.end_line) then
      some s!"start_line and end_line must be integers in comment at index {i}"
    else validateList (i + 1) rest

/-- The reviewer's whole `comments` validation: a non-list is rejected,
an absent key defaults to the empty list, and a list is checked
element-wise. -/
def validateComments : CommentsField → Option String
  | .absent => none
  | .notList _ => some "\x27comments\x27 must be a list"
  | .list cs => validateList 0 cs

/-- The comment list a validated `comments` field denotes. -/
def commentsList : CommentsField → List CVal
  | .list cs => cs
  | _ => []

/-- `c["severity"] == "error"`. -/
def isErrorSev (c : RCFields) : Bool :=
  match c.severity with
  | some (.jstr s) => s == "error"
  | _ => false

/-- The error-severity comment objects of the list, in order. -/
def errComments (cs : List CVal) : List RCFields :=
  cs.filterMap (fun cv =>
    match cv with
    | .obj c => if isErrorSev c then some c else none
    | .notObj _ => none)

/-- The summary line for one error comment:
`f"{path}:{start_line}-{end_line} [{severity}]: {comment}"`. -/
def formatComment (c : RCFields) : String :=
  pyStrOpt c.path ++ ":" ++ pyStrOpt c.start_line ++ "-" ++ pyStrOpt c.end_line ++
    " [" ++ pyStrOpt c.severity ++ "]: " ++ pyStrOpt c.comment

/-- The fields of a parsed reviewer reply that `review_task` reads.
`commands` models `response.get("commands", [])` (absence is the empty
list). -/
structure RevJson where
  status : Option String
  comments : CommentsField
  commands : List String
deriving Repr, DecidableEq

/-- Outcome of `json.loads` on one raw reviewer reply. -/
inductive RevRaw where
  | malformed (err raw : String)
  | parsed (j : RevJson)

/-- External collaborators of the reviewer loop. -/
structure RevOracle where
  reply : Nat → RevRaw
  fs : FS

/-- The shared `Context` of `execution_context.py` as the reviewer loop
uses it, together with the loop's pending instruction: the prompt
context dict, the write-counting `step`, the convergence flag, and the
log files written so far (newest first, names prefixed with the step at
write time). -/
structure RevState where
  promptContext : List (String × String)
  step : Nat
  reviewFinished : Bool
  currentRequest : String
  logFiles : List (String × String)
deriving Repr, DecidableEq

/-- `Context.write_text` / `Context.write_json`: prefix the file name
with the current step and increment the step. -/
def ctxWrite (st : RevState) (name content : String) : RevState :=
  { st with
      logFiles := (toString st.step ++ "_" ++ name, content) :: st.logFiles,
      step := st.step + 1 }

/-- Abstract rendering of the reviewer's response echo log. -/
def revRespLog (j : RevJson) : String :=
  "LLM Response: status=" ++ j.status.getD ""

/-- The reviewer's terminal log line when the step budget is exceeded. -/
def revExceededMsg : String :=
  "Exceeded maximum number of steps without producing a valid review."

/-- The command-execution loop of the reviewer's `need_more_info` branch;
identical to the developer's except that results are written into the
shared prompt context and logged through the step-prefixed writer. -/
def revCmds (fs : FS) : RevState → List String → RevState
  | st, [] => st
  | st, command :: rest =>
    if strStartsWith command "ls " then
      let path := strTrim (strDrop command 3)
      let r := ls fs path
      revCmds fs
        { ctxWrite st "reviewer.txt" ("ls " ++ path ++ "\n" ++ r) with
            promptContext := dictSet st.promptContext ("LS_OUTPUT " ++ path) r } rest
    else if strStartsWith command "cat " then
      let path := strTrim (strDrop command 4)
      let r := cat fs path
      revCmds fs
        { ctxWrite st "reviewer.txt" ("cat " ++ path ++ "\n" ++ r) with
            promptContext := dictSet st.promptContext ("CAT_OUTPUT " ++ path) r } rest
    else if strStartsWith command "tree " then
      match pySplitWs (strTrim (strDrop command 5)) with
      | [path, depthStr] =>
        match pyInt depthStr with
        | some depth =>
          let r := tree fs path depth
          revCmds fs
            { ctxWrite st "reviewer.txt"
                ("tree " ++ path ++ " " ++ toString depth ++ "\n" ++ r) with
                promptContext := dictSet st.promptContext
                  ("TREE_OUTPUT " ++ path ++ " " ++ toString depth) r } rest
        | none =>
          { ctxWrite st "reviewer.txt" ("Invalid depth in tree command: " ++ command) with
              currentRequest := "Invalid depth in tree command: " ++ command ++
                ". Depth must be an integer." }
      | _ =>
        { ctxWrite st "reviewer.txt" ("Invalid tree command: " ++ command) with
            currentRequest := "Invalid tree command: " ++ command ++
              ". Please use the format: tree <path> <depth>." }
    else
      { ctxWrite st "reviewer.txt" ("Invalid command: " ++ command) with
          currentRequest := "Invalid command: " ++ command ++
            ". Please use only the allowed commands: ls, cat, tree." }

/-- Terminal dispositions of `Reviewer.review_task`. -/
inductive RevOutcome where
  | completed (st : RevState)
  | exceeded (st : RevState)
deriving Repr, DecidableEq

/-- The state carried by a `RevOutcome`. -/
def RevOutcome.state : RevOutcome → RevState
  | .completed st => st
  | .exceeded st => st

/-- Whether the reviewer outcome is the Exceeded terminal. -/
def RevOutcome.isExceeded : RevOutcome → Bool
  | .exceeded _ => true
  | _ => false

/-- Whether the reviewer outcome is the Complete terminal. -/
def RevOutcome.isCompleted : RevOutcome → Bool
  | .completed _ => true
  | _ => false

/-- The `while True` loop of `Reviewer.review_task`: budget-guarded on
the shared context's write counter, with corrective retries on parse or
validation failure, command execution on `need_more_info`, and the
summary/convergence logic on a validated Complete reply. -/
def revLoop (o : RevOracle) (k : Nat) (st : RevState) : RevOutcome :=
  if _h200 : st.step > 200 then
    .exceeded (ctxWrite st "reviewer_final.txt" revExceededMsg)
  else
    match o.reply k with
    | .malformed err raw =>
      revLoop o (k + 1)
        { ctxWrite st "reviewer.txt" (parseFailLog err raw) with
            currentRequest := parseFailReq err }
    | .parsed j =>
      let st1 := ctxWrite st "reviewer.txt" (revRespLog j)
      if j.status.getD "" = "complete" then
        match validateComments j.comments with
        | some invalid =>
          revLoop o (k + 1)
            { ctxWrite st1 "reviewer.txt" invalid with
                currentRequest := invalid ++
                  ". Please return a JSON object strictly following the schema." }
        | none =>
          let st2 := ctxWrite st1 "reviewer_final.json" (revRespLog j)
          let summary := (errComments (commentsList j.comments)).map formatComment
          let st3 := { st2 with
            promptContext := dictSet st2.promptContext "REVIEW_SUMMARY"
              (strIntercalate "\n" summary) }
          let st4 := ctxWrite st3 "reviewer_final.txt" (strIntercalate "\n" summary)
          .completed (if summary.isEmpty then { st4 with reviewFinished := true } else st4)
      else if j.status.getD "" = "need_more_info" then
        revLoop o (k + 1) (revCmds o.fs st1 j.commands)
      else
        revLoop o (k + 1)
          { ctxWrite st1 "reviewer.txt" ("Incorrect response status: " ++ j.status.getD "") with
              currentRequest := badStatusReq (j.status.getD "") }
termination_by 201 - st.step
decreasing_by
  all_goals simp only [ctxWrite]
  case _ => omega
  case _ => omega
  case _ =>
    have hmono : ∀ (cmds : List String) (st2 : RevState),
        st2.step ≤ (revCmds o.fs st2 cmds).step := by
      intro cmds
      induction cmds with
      | nil => intro st2; simp [revCmds]
      | cons c rest ih =>
        intro st2
        simp only [revCmds]
        repeat' split
        all_goals
          first
          | (refine Nat.le_trans ?_ (ih _); simp only [ctxWrite]; omega)
          | (simp only [ctxWrite]; omega)
    have h1 := hmono j.commands (ctxWrite st "reviewer.txt" (revRespLog j))
    simp only [ctxWrite] at h1
    omega
  case _ => omega

/-- `Reviewer.review_task`: run the loop on the caller's shared context
with the fixed initial instruction. -/
def review_task (o : RevOracle) (st : RevState) : RevOutcome :=
  revLoop o 0
    { st with
        currentRequest := "Review the proposed changes and produce concise, specific " ++
          "comments that point to exact places in the diff (file path and line ranges). " ++
          "Follow the required JSON schema exactly." }

/-! ## Characterization helpers and concrete fixtures -/

/-- The paths a run of the change-application loop actually rewrites:
those whose `git apply` call reported success. -/
def writtenPaths (ad : String → String → Option String) (cs : List Change) : List String :=
  (cs.filter (fun c => (ad c.path c.patch).isNone)).map Change.path

/-- The per-comment condition the reviewer's validation actually
enforces: a JSON object carrying the five required keys, a severity in
the fixed enum, and `int()`-convertible line fields.  (No sign or
ordering constraint.) -/
def commentOk : CVal → Bool
  | .notObj _ => false
  | .obj c =>
    (missingKeys c).isEmpty && sevOk c.severity &&
      (intConvOk c.start_line && intConvOk c.end_line)

/-- The whole-field condition the reviewer's validation enforces. -/
def commentsValid : CommentsField → Bool
  | .absent => true
  | .notList _ => false
  | .list cs => cs.all commentOk

/-- A filesystem whose root resolves under `/repo` while `/outside` is a
directory and `/outside/f.txt` a file, both canonically outside the
repository root. -/
def fsOutside : FS :=
  { isfile := fun p => p == "/outside/f.txt",
    isdir := fun p => p == "/outside",
    realpath := fun p => some p,
    cwdReal := some "/repo",
    listdir := fun _ => [],
    readFile := fun _ => "",
    walk := fun _ => [] }

/-- A Complete developer reply whose second file change will fail to
apply. -/
def devJsonRound0 : DevJson :=
  { status := some "complete",
    changes := some [⟨"a.txt", "patchA"⟩, ⟨"b.txt", "patchB"⟩],
    commit_message := some "m",
    commands := none }

/-- A Complete developer reply with no file changes. -/
def devJsonRound1 : DevJson :=
  { status := some "complete",
    changes := some [],
    commit_message := some "done",
    commands := none }

/-- A `git apply` collaborator that succeeds on `a.txt` and fails on
every other file. -/
def devApplyAB (p : String) (_patch : String) : Option String :=
  if p == "a.txt" then none else some "error: patch failed"

/-- Developer oracle: first reply applies `a.txt` then fails on `b.txt`;
the second reply completes with no changes. -/
def devOracleAB : DevOracle :=
  { reply := fun k => if k == 0 then .parsed devJsonRound0 else .parsed devJsonRound1,
    applyDiff := devApplyAB,
    fs := fsOutside }

/-- A developer oracle whose remote replies never parse. -/
def devOracleMal : DevOracle :=
  { reply := fun _ => .malformed "Expecting value" "oops",
    applyDiff := fun _ _ => none,
    fs := fsOutside }

/-- Initial developer state for the concrete runs. -/
def devInit0 : DevState :=
  { context := [("TASK", "t")],
    currentRequest := "Solve the task",
    logFiles := [("developer_task.txt", "t")],
    applied := [] }

/-- Initial reviewer state for the concrete runs. -/
def revInit0 : RevState :=
  { promptContext := [], step := 0, reviewFinished := false,
    currentRequest := "r", logFiles := [] }

/-- A review comment whose line bounds are reversed (`5 > 2`). -/
def badOrderComment : RCFields :=
  { path := some (.jstr "a.py"), start_line := some (.jint 5),
    end_line := some (.jint 2), comment := some (.jstr "c"),
    severity := some (.jstr "error") }

/-- A review comment with negative line bounds. -/
def negLineComment : RCFields :=
  { path := some (.jstr "b.py"), start_line := some (.jint (-3)),
    end_line := some (.jint (-5)), comment := some (.jstr "c"),
    severity := some (.jstr "warning") }

/-- A reviewer oracle whose first reply is Complete with the
reversed-bounds comment. -/
def revOracleBad : RevOracle :=
  { reply := fun _ =>
      .parsed { status := some "complete",
                comments := .list [.obj badOrderComment],
                commands := [] },
    fs := fsOutside }

/-- A reviewer oracle whose first reply is Complete with no comments. -/
def revOracleEmpty : RevOracle :=
  { reply := fun _ =>
      .parsed { status := some "complete", comments := .list [], commands := [] },
    fs := fsOutside }

/-- A reviewer oracle whose replies never parse. -/
def revOracleMal : RevOracle :=
  { reply := fun _ => .malformed "Expecting value" "oops",
    fs := fsOutside }

/-- A reviewer state whose shared context already counts 201 writes. -/
def revInit201 : RevState :=
  { revInit0 with step := 201 }

/-- A Complete reviewer reply whose `comments` value is not a list. -/
def revJsonNotList : RevJson :=
  { status := some "complete", comments := .notList (.jint 3), commands := [] }

/-- A reviewer oracle that always replies with `revJsonNotList`. -/
def revOracleNotList : RevOracle :=
  { reply := fun _ => .parsed revJsonNotList, fs := fsOutside }

/-- The reviewer reply wrapped by `revOracleEmpty`. -/
def revJsonEmpty : RevJson :=
  { status := some "complete", comments := .list [], commands := [] }

/-- Backlog task `A` with no dependencies, status ready. -/
def taskA : Task := ⟨"A", "", "", [], "ready", ""⟩

/-- Backlog task `B` depending on `A`, status ready. -/
def taskB : Task := ⟨"B", "", "", ["A"], "ready", ""⟩

/-- Backlog task `A` after its status left the ready marker. -/
def taskADone : Task := ⟨"A", "", "", [], "done", ""⟩

/-!
## Theorems

First some shared lemmas about the embedded operations, then
one theorem per claim (with witnesses and counterexamples).
-/

/-- Updating a key and reading it back yields the written value. -/
theorem dictGet_dictSet (d : List (String × String)) (k v : String) :
    dictGet (dictSet d k v) k = some v := by
  induction d with
  | nil => simp [dictSet, dictGet]
  | cons p t ih =>
    by_cases h : p.1 = k
    · simp [dictSet, dictGet, h]
    · simp [dictSet, dictGet, h, ih]

/-- The change-application loop never touches the conversation context. -/
theorem applyChanges_fst_context (ad : String → String → Option String) (s : Nat)
    (cs : List Change) (st : DevState) :
    (applyChanges ad s st cs).1.context = st.context := by
  induction cs generalizing st with
  | nil => simp [applyChanges]
  | cons c rest ih =>
    simp only [applyChanges]
    cases ad c.path c.patch with
    | none => exact ih _
    | some err =>
      by_cases he : err ≠ ""
      · simp [he]
      · simp [he, ih _]

/-- The reviewer's element-wise validation accepts a list exactly when
every element passes the code's per-comment checks. -/
theorem validateList_none_iff (cs : List CVal) (i : Nat) :
    validateList i cs = none ↔ cs.all commentOk = true := by
  induction cs generalizing i with
  | nil => simp [validateList]
  | cons c rest ih =>
    cases c with
    | notObj v => simp [validateList, commentOk]
    | obj f =>
      by_cases h1 : missingKeys f = []
      · by_cases h2 : sevOk f.severity
        · by_cases h3 : intConvOk f.start_line && intConvOk f.end_line
          · simp [validateList, h1, h2, h3, commentOk, ih, List.isEmpty_iff]
          · simp [validateList, h1, h2, h3, commentOk, List.isEmpty_iff]
        · simp [validateList, h1, h2, commentOk, List.isEmpty_iff]
      · simp [validateList, h1, commentOk, List.isEmpty_iff]

/-- Range validation passes exactly when every hunk is in bounds. -/
theorem firstRangeError_none_iff (file : String) (lines : List String) (hs : List Hunk) :
    firstRangeError file lines hs = none ↔ hs.all (hunkInBounds lines) = true := by
  simp [firstRangeError, Option.map_eq_none', List.find?_eq_none, List.all_eq_true]

/-- Overlap validation passes exactly when no two hunks intersect. -/
theorem firstOverlap_none_iff (file : String) (hs : List Hunk) :
    firstOverlap file hs = none ↔ noOverlaps hs = true := by
  induction hs with
  | nil => simp [firstOverlap, noOverlaps]
  | cons h t ih =>
    simp only [firstOverlap, noOverlaps]
    cases hf : t.find? (fun h2 => hunksOverlap h h2) with
    | some h2 =>
      have hmem := List.mem_of_find?_eq_some hf
      have hov := List.find?_some hf
      simp only [Bool.and_eq_true, List.all_eq_true]
      constructor
      · intro hc; exact absurd hc (by simp)
      · rintro ⟨hall, -⟩
        have := hall h2 hmem
        rw [hov] at this
        simp at this
    | none =>
      have hall : ∀ h2 ∈ t, hunksOverlap h h2 = false := by
        intro h2 hm
        have := List.find?_eq_none.mp hf h2 hm
        simpa using this
      simp only [Bool.and_eq_true, List.all_eq_true]
      rw [ih]
      constructor
      · intro hc; exact ⟨fun h2 hm => by simp [hall h2 hm], hc⟩
      · rintro ⟨-, hc⟩; exact hc

/-- An overlap error reported by the validation names a real intersecting
pair of hunks from the list. -/
theorem firstOverlap_sound (file : String) (hs : List Hunk) (e : PatchError) :
    firstOverlap file hs = some e →
    ∃ a b, a ∈ hs ∧ b ∈ hs ∧ hunksOverlap a b = true ∧
      e = .overlap file a.old_start a.old_len b.old_start b.old_len := by
  induction hs with
  | nil => simp [firstOverlap]
  | cons h t ih =>
    simp only [firstOverlap]
    cases hf : t.find? (fun h2 => hunksOverlap h h2) with
    | some h2 =>
      intro he
      refine ⟨h, h2, by simp, by simp [List.mem_of_find?_eq_some hf], ?_, ?_⟩
      · have := List.find?_some hf; simpa using this
      · simpa using he.symm
    | none =>
      intro he
      obtain ⟨a, b, ha, hb, hov, heq⟩ := ih he
      exact ⟨a, b, by simp [ha], by simp [hb], hov, heq⟩

/-- C1 (corrected): `ls` of a path whose canonical form is outside the
repository root does not return the forbidden sentinel when the path is
an existing file — the file's path itself is returned before the sandbox
guard runs — and `tree` with a negative depth returns the empty string
before any check.  Both contradict the claim that all three accessors
always return the sentinel for outside paths. -/
theorem C1_counterexample :
    outsideRoot fsOutside "/outside/f.txt" = true ∧
    ls fsOutside "/outside/f.txt" = "/outside/f.txt" ∧
    ("/outside/f.txt" : String) ≠ FORBIDDEN ∧
    outsideRoot fsOutside "/outside" = true ∧
    fsOutside.isdir "/outside" = true ∧
    tree fsOutside "/outside" (-1) = "" ∧
    ("" : String) ≠ FORBIDDEN := by
  decide

/-- C1 (amended): for every path whose canonical (symlink-resolved) form
is neither the repository root nor a descendant of it, `cat` returns the
forbidden sentinel, `tree` returns the sentinel for every non-negative
depth (a negative depth yields the empty string), and `ls` returns the
sentinel unless the path is an existing file, in which case `ls` returns
the path string itself; none of the three throws. -/
theorem C1_sandbox_amended (fs : FS) (p : String) (hout : outsideRoot fs p = true) :
    cat fs p = FORBIDDEN ∧
    (∀ d : Int, 0 ≤ d → tree fs p d = FORBIDDEN) ∧
    (fs.isfile p = false → ls fs p = FORBIDDEN) := by
  refine ⟨?_, ?_, ?_⟩
  · by_cases hf : fs.isfile p
    · simp [cat, hf, hout]
    · simp [cat, hf]
  · intro d hd
    have hneg : ¬ d < 0 := by omega
    by_cases hdir : fs.isdir p
    · simp [tree, hneg, hdir, hout]
    · simp [tree, hneg, hdir]
  · intro hfile
    by_cases hdir : fs.isdir p
    · simp [ls, hfile, hdir, hout]
    · simp [ls, hfile, hdir]

/-- Witness for `C1_sandbox_amended` at a concrete outside directory. -/
theorem C1_sandbox_amended_witness :
    outsideRoot fsOutside "/outside" = true ∧
    (cat fsOutside "/outside" = FORBIDDEN ∧
     (∀ d : Int, 0 ≤ d → tree fsOutside "/outside" d = FORBIDDEN) ∧
     (fsOutside.isfile "/outside" = false → ls fsOutside "/outside" = FORBIDDEN)) :=
  ⟨by decide, C1_sandbox_amended fsOutside "/outside" (by decide)⟩

/-- C2 (corrected): the scheduler never excludes tasks that are already
in the completed set — with `A(deps=[])` and `B(deps=["A"])` both still
`status=ready` and `A` in the completed set, it returns `A` again, not
`B` as the claim states. -/
theorem C2_counterexample :
    pick_next_ready [taskA, taskB] ["A"] = some taskA ∧ taskA ≠ taskB := by
  decide

/-- C2 (amended): `pick_next_ready` returns the first task in
declaration order whose status is `"ready"` and whose every dependency
is in the completed set (formally: it equals `List.find?` of that
predicate), and returns `none` exactly when no task qualifies.  On the
concrete backlog it picks `A` with nothing completed, picks `A` again
with `A` completed while `A` is still marked ready, and picks `B` once
`A`'s status has left the ready marker. -/
theorem C2_scheduler_amended :
    (∀ (tasks : List Task) (done_ids : List String),
      pick_next_ready tasks done_ids =
        tasks.find? (fun t => t.status == "ready" &&
          t.deps.all (fun dep => done_ids.contains dep))) ∧
    (∀ (tasks : List Task) (done_ids : List String),
      (pick_next_ready tasks done_ids = none ↔
        ∀ t ∈ tasks, (t.status == "ready" &&
          t.deps.all (fun dep => done_ids.contains dep)) = false)) ∧
    pick_next_ready [taskA, taskB] [] = some taskA ∧
    pick_next_ready [taskADone, taskB] ["A"] = some taskB := by
  have hfind : ∀ (tasks : List Task) (done_ids : List String),
      pick_next_ready tasks done_ids =
        tasks.find? (fun t => t.status == "ready" &&
          t.deps.all (fun dep => done_ids.contains dep)) := by
    intro tasks done_ids
    induction tasks with
    | nil => rfl
    | cons t ts ih =>
      simp only [pick_next_ready, List.find?]
      cases hs : t.status == "ready" with
      | false => simp [hs, ih]
      | true =>
        cases hd : t.deps.all (fun dep => done_ids.contains dep) with
        | false => simp [hs, hd, ih]
        | true => simp [hs, hd]
  refine ⟨hfind, ?_, by decide, by decide⟩
  intro tasks done_ids
  rw [hfind, List.find?_eq_none]
  constructor
  · intro hp t hm
    have := hp t hm
    simpa using this
  · intro hp t hm hc
    have h := hp t hm
    rw [hc] at h
    cases h

/-- C4 (spec-modelled): the hunk engine applies a file's hunks by
sorting them by `old_start` descending and replacing each half-open
0-indexed range `[old_start, old_start+old_len)` with `new_lines`;
applying `(1, 2, ["X"])` to `["L1","L2","L3","L4"]` yields
`["L1","X","L4"]`; application succeeds exactly when every hunk is in
bounds and no two hunks overlap, and every failure names the file and a
real offending range. -/
theorem C4_hunk_engine :
    applyHunks "f" ["L1", "L2", "L3", "L4"]
      [{ old_start := 1, old_len := 2, new_lines := ["X"] }] = .ok ["L1", "X", "L4"] ∧
    (∀ (file : String) (lines : List String) (hs : List Hunk),
      (∃ r, applyHunks file lines hs = .ok r) ↔
        (hs.all (hunkInBounds lines) = true ∧ noOverlaps hs = true)) ∧
    (∀ (file : String) (lines : List String) (hs : List Hunk) (e : PatchError),
      applyHunks file lines hs = .error e →
      e.file = file ∧
      match e with
      | .range _ s l =>
        ∃ h, h ∈ hs ∧ h.old_start = s ∧ h.old_len = l ∧ hunkInBounds lines h = false
      | .overlap _ s1 l1 s2 l2 =>
        ∃ a b, a ∈ hs ∧ b ∈ hs ∧ hunksOverlap a b = true ∧
          a.old_start = s1 ∧ a.old_len = l1 ∧ b.old_start = s2 ∧ b.old_len = l2) := by
  refine ⟨by decide, ?_, ?_⟩
  · intro file lines hs
    constructor
    · rintro ⟨r, hr⟩
      unfold applyHunks at hr
      cases h1 : firstRangeError file lines hs with
      | some e => rw [h1] at hr; cases hr
      | none =>
        rw [h1] at hr
        cases h2 : firstOverlap file hs with
        | some e => rw [h2] at hr; cases hr
        | none =>
          exact ⟨(firstRangeError_none_iff file lines hs).mp h1,
                 (firstOverlap_none_iff file hs).mp h2⟩
    · rintro ⟨hb, hn⟩
      refine ⟨(sortByStartDesc hs).foldl applyOneHunk lines, ?_⟩
      unfold applyHunks
      rw [(firstRangeError_none_iff file lines hs).mpr hb,
          (firstOverlap_none_iff file hs).mpr hn]
  · intro file lines hs e herr
    unfold applyHunks at herr
    cases h1 : firstRangeError file lines hs with
    | some e1 =>
      rw [h1] at herr
      cases herr
      unfold firstRangeError at h1
      rw [Option.map_eq_some'] at h1
      obtain ⟨h, hfind, hform⟩ := h1
      have hmem := List.mem_of_find?_eq_some hfind
      have hfail := List.find?_some hfind
      subst hform
      refine ⟨rfl, h, hmem, rfl, rfl, ?_⟩
      simpa using hfail
    | none =>
      rw [h1] at herr
      cases h2 : firstOverlap file hs with
      | some e2 =>
        rw [h2] at herr
        cases herr
        obtain ⟨a, b, ha, hb, hov, heq⟩ := firstOverlap_sound file hs _ h2
        subst heq
        exact ⟨rfl, a, b, ha, hb, hov, rfl, rfl, rfl, rfl⟩
      | none => rw [h2] at herr; cases herr

/-- Witness for `C4_hunk_engine`: an out-of-range hunk is rejected with
the file and range named, and an overlapping pair is rejected. -/
theorem C4_hunk_engine_witness :
    applyHunks "g" ["A"] [{ old_start := 0, old_len := 5, new_lines := [] }] =
      .error (.range "g" 0 5) ∧
    (PatchError.range "g" 0 5).file = "g" ∧
    applyHunks "h" ["A", "B", "C"]
      [{ old_start := 0, old_len := 2, new_lines := ["x"] },
       { old_start := 1, old_len := 1, new_lines := ["y"] }] =
      .error (.overlap "h" 0 2 1 1) :=
  ⟨by decide,
   (C4_hunk_engine.2.2 "g" ["A"] [{ old_start := 0, old_len := 5, new_lines := [] }]
      (.range "g" 0 5) (by decide)).1,
   by decide⟩

/-- C9: `validate_docs_only` returns normally exactly when every proposed
file's resolved path starts, as a string, with the resolved path of
`repo/docs`, and otherwise raises a `ValueError` naming the first
offending path; `validate_allowed_prefixes` behaves identically with
respect to a list of allowed roots.  (Both are embedded as pure
functions: they mutate neither the proposal nor the filesystem.) -/
theorem C9_validators :
    (∀ (rv : Resolver) (repo : String) (files : List ProposedFile),
      validate_docs_only rv repo files =
        match files.find? (fun f =>
            !(strStartsWith (rv.resolve (pyJoin repo f.path)) (rv.resolve (pyJoin repo "docs")))) with
        | none => .ok ()
        | some f => .error ("Proposed path outside docs/: " ++ f.path)) ∧
    (∀ (rv : Resolver) (repo : String) (prefixes : List String) (files : List ProposedFile),
      validate_allowed_prefixes rv repo prefixes files =
        match files.find? (fun f =>
            !(prefixes.any (fun pre =>
              strStartsWith (rv.resolve (pyJoin repo f.path)) (rv.resolve (pyJoin repo pre))))) with
        | none => .ok ()
        | some f => .error ("Proposed path not allowed: " ++ f.path)) ∧
    (∀ (rv : Resolver) (repo : String) (files : List ProposedFile),
      validate_docs_only rv repo files = .ok () ↔
        ∀ f ∈ files,
          strStartsWith (rv.resolve (pyJoin repo f.path)) (rv.resolve (pyJoin repo "docs")) = true) ∧
    (∀ (rv : Resolver) (repo : String) (prefixes : List String) (files : List ProposedFile),
      validate_allowed_prefixes rv repo prefixes files = .ok () ↔
        ∀ f ∈ files,
          (prefixes.any (fun pre =>
            strStartsWith (rv.resolve (pyJoin repo f.path)) (rv.resolve (pyJoin repo pre)))) = true) := by
  have hdocs : ∀ (rv : Resolver) (repo : String) (files : List ProposedFile),
      validate_docs_only rv repo files =
        match files.find? (fun f =>
            !(strStartsWith (rv.resolve (pyJoin repo f.path)) (rv.resolve (pyJoin repo "docs")))) with
        | none => .ok ()
        | some f => .error ("Proposed path outside docs/: " ++ f.path) := by
    intro rv repo files
    induction files with
    | nil => rfl
    | cons f fs ih =>
      simp only [validate_docs_only, List.find?]
      cases hc : strStartsWith (rv.resolve (pyJoin repo f.path)) (rv.resolve (pyJoin repo "docs")) with
      | false => simp [hc]
      | true => simp [hc, ih]
  have hpre : ∀ (rv : Resolver) (repo : String) (prefixes : List String) (files : List ProposedFile),
      validate_allowed_prefixes rv repo prefixes files =
        match files.find? (fun f =>
            !(prefixes.any (fun pre =>
              strStartsWith (rv.resolve (pyJoin repo f.path)) (rv.resolve (pyJoin repo pre))))) with
        | none => .ok ()
        | some f => .error ("Proposed path not allowed: " ++ f.path) := by
    intro rv repo prefixes files
    induction files with
    | nil => rfl
    | cons f fs ih =>
      simp only [validate_allowed_prefixes, List.find?]
      cases hc : prefixes.any (fun pre =>
          strStartsWith (rv.resolve (pyJoin repo f.path)) (rv.resolve (pyJoin repo pre))) with
      | false => simp [hc]
      | true => simp [hc, ih]
  refine ⟨hdocs, hpre, ?_, ?_⟩
  · intro rv repo files
    rw [hdocs]
    cases hf : files.find? (fun f =>
        !(strStartsWith (rv.resolve (pyJoin repo f.path)) (rv.resolve (pyJoin repo "docs")))) with
    | none =>
      simp only []
      constructor
      · intro _ f hm
        have := List.find?_eq_none.mp hf f hm
        simpa using this
      · intro _; trivial
    | some f =>
      simp only []
      constructor
      · intro hc; cases hc
      · intro hall
        have := List.find?_some hf
        have hmem := List.mem_of_find?_eq_some hf
        rw [hall f hmem] at this
        cases this
  · intro rv repo prefixes files
    rw [hpre]
    cases hf : files.find? (fun f =>
        !(prefixes.any (fun pre =>
          strStartsWith (rv.resolve (pyJoin repo f.path)) (rv.resolve (pyJoin repo pre))))) with
    | none =>
      simp only []
      constructor
      · intro _ f hm
        have := List.find?_eq_none.mp hf f hm
        simpa using this
      · intro _; trivial
    | some f =>
      simp only []
      constructor
      · intro hc; cases hc
      · intro hall
        have := List.find?_some hf
        have hmem := List.mem_of_find?_eq_some hf
        rw [hall f hmem] at this
        cases this

/-- C10: after all checks pass, when the summed added+deleted line counts
of `git diff --numstat` exceed 300 the run appends a blocking "Diff too
large" problem for the task and exits with code 7, appending nothing to
`done.yaml` and creating no commit. -/
theorem C10_diff_gate (taskId title numstat : String) (added deleted : Nat)
    (hsum : sumNumstat numstat = .ok (added, deleted)) (hbig : added + deleted > 300) :
    runTail taskId title numstat =
      .ok { problems := [(taskId, s!"Diff too large: {added}+{deleted} lines", true)],
            doneAppended := [], commits := [], exitCode := 7 } := by
  simp [runTail, hsum, hbig]

/-- Witness for `C10_diff_gate` on a concrete two-file numstat. -/
theorem C10_diff_gate_witness :
    sumNumstat "200\t150\tsrc/a.py" = .ok (200, 150) ∧ 200 + 150 > 300 ∧
    runTail "T1" "Title" "200\t150\tsrc/a.py" =
      .ok { problems := [("T1", s!"Diff too large: {(200 : Nat)}+{(150 : Nat)} lines", true)],
            doneAppended := [], commits := [], exitCode := 7 } :=
  ⟨by decide, by decide, C10_diff_gate "T1" "Title" "200\t150\tsrc/a.py" 200 150 (by decide) (by decide)⟩

/-- C3 (corrected): applying a Complete reply's changes is not
all-or-nothing across the round — with a reply changing `a.txt` then
`b.txt`, where `a.txt` applies and `b.txt` fails, the failing round
leaves `a.txt` rewritten in the working tree while the failure reason
becomes the next instruction. -/
theorem C3_counterexample :
    devApplyAB "b.txt" "patchB" = some "error: patch failed" ∧
    (devLoop devOracleAB 0 0 devInit0).state.applied = ["a.txt"] ∧
    (devLoop devOracleAB 0 0 devInit0).state.currentRequest =
      applyFailReq "b.txt" "error: patch failed" := by
  refine ⟨by decide, ?_, ?_⟩ <;>
    (rw [devLoop.eq_def]
     simp +decide [devOracleAB, devJsonRound0, devApplyAB, applyChanges, devInit0, devRespLog]
     rw [devLoop.eq_def]
     simp +decide [devJsonRound1, applyChanges, dictSet, DevOutcome.state, applyFailReq,
       applyFailLog])

/-- C3 (amended): change application is sequential per file, not atomic
across the round — the loop applies each file's diff in order, and on
the first failure it stops, feeds the structured failure reason back as
the next developer instruction, and leaves every earlier file of the
round rewritten; the conversation context is untouched by a failing
round, and only a fully successful round records the commit message
(the loop itself never commits). -/
theorem C3_apply_amended :
    (∀ (ad : String → String → Option String) (s : Nat) (st : DevState)
       (pre : List Change) (c : Change) (post : List Change) (err : String),
      (∀ c2 ∈ pre, applyFailed (ad c2.path c2.patch) = false) →
      ad c.path c.patch = some err → err ≠ "" →
      applyChanges ad s st (pre ++ c :: post) =
        ({ st with
            applied := st.applied ++ writtenPaths ad pre,
            logFiles := (s!"developer_{s}.txt", applyFailLog c.path err) :: st.logFiles,
            currentRequest := applyFailReq c.path err },
         some (c.path, err))) ∧
    (∀ (o : DevOracle) (k s : Nat) (st : DevState) (j : DevJson) (cs : List Change)
       (st2 : DevState) (pe : String × String),
      s ≤ 100 → o.reply k = .parsed j → j.status.getD "" = "complete" → j.changes = some cs →
      applyChanges o.applyDiff (s + 1)
        { st with logFiles := (s!"developer_{s}.txt", devRespLog j) :: st.logFiles } cs =
        (st2, some pe) →
      devLoop o k s st = devLoop o (k + 1) (s + 2) st2 ∧ st2.context = st.context) ∧
    (∀ (o : DevOracle) (k s : Nat) (st : DevState) (j : DevJson) (cs : List Change)
       (st2 : DevState) (m : String),
      s ≤ 100 → o.reply k = .parsed j → j.status.getD "" = "complete" → j.changes = some cs →
      j.commit_message = some m →
      applyChanges o.applyDiff (s + 1)
        { st with logFiles := (s!"developer_{s}.txt", devRespLog j) :: st.logFiles } cs =
        (st2, none) →
      devLoop o k s st = .completed
        { st2 with context := (dictSet (dictSet st2.context "COMMIT_MESSAGE" m) "DIFF_CONTENT" (dumpsChanges cs)) }) := by
  refine ⟨?_, ?_, ?_⟩
  · intro ad s st pre c post err hpre hc herr
    induction pre generalizing st with
    | nil => simp [applyChanges, hc, herr, writtenPaths]
    | cons c2 pre2 ih =>
      have h2 := hpre c2 (by simp)
      cases ha2 : ad c2.path c2.patch with
      | none =>
        simp only [List.cons_append, applyChanges, ha2, List.append_eq]
        rw [ih { st with applied := st.applied ++ [c2.path] }
          (fun c3 hm => hpre c3 (List.mem_cons_of_mem c2 hm))]
        simp [writtenPaths, ha2]
      | some e2 =>
        rw [ha2] at h2
        simp only [applyFailed] at h2
        have he2 : e2 = "" := by
          by_cases hx : e2 = ""
          · exact hx
          · simp [hx] at h2
        subst he2
        simp only [List.cons_append, applyChanges, ha2, List.append_eq]
        rw [if_neg (by simp)]
        rw [ih st (fun c3 hm => hpre c3 (List.mem_cons_of_mem c2 hm))]
        simp [writtenPaths, ha2]
  · intro o k s st j cs st2 pe hs hrep hstat hch happ
    have hng : ¬ s > 100 := by omega
    constructor
    · conv_lhs => rw [devLoop.eq_def]
      rw [dif_neg hng, hrep]
      simp only [hstat, hch]
      rw [happ]
      simp
    · have hctx := applyChanges_fst_context o.applyDiff (s + 1) cs
        { st with logFiles := (s!"developer_{s}.txt", devRespLog j) :: st.logFiles }
      rw [happ] at hctx
      exact hctx
  · intro o k s st j cs st2 m hs hrep hstat hch hcm happ
    have hng : ¬ s > 100 := by omega
    conv_lhs => rw [devLoop.eq_def]
    rw [dif_neg hng, hrep]
    simp only [hstat, hch]
    rw [happ, hcm]
    simp

/-- Witness for `C3_apply_amended` on a concrete two-file round whose
second file fails to apply. -/
theorem C3_apply_amended_witness :
    ((∀ c2 ∈ [Change.mk "a.txt" "patchA"],
        applyFailed (devApplyAB c2.path c2.patch) = false) ∧
      devApplyAB "b.txt" "patchB" = some "error: patch failed" ∧
      ("error: patch failed" : String) ≠ "") ∧
    applyChanges devApplyAB 1 devInit0
        ([Change.mk "a.txt" "patchA"] ++ Change.mk "b.txt" "patchB" :: []) =
      ({ devInit0 with
          applied := devInit0.applied ++ writtenPaths devApplyAB [Change.mk "a.txt" "patchA"],
          logFiles := (s!"developer_{(1 : Nat)}.txt",
            applyFailLog "b.txt" "error: patch failed") :: devInit0.logFiles,
          currentRequest := applyFailReq "b.txt" "error: patch failed" },
       some ("b.txt", "error: patch failed")) :=
  ⟨⟨by decide, by decide, by decide⟩,
   C3_apply_amended.1 devApplyAB 1 devInit0 [Change.mk "a.txt" "patchA"]
     (Change.mk "b.txt" "patchB") [] "error: patch failed"
     (by decide) (by decide) (by decide)⟩

/-- C5: when the step counter exceeds the per-invocation budget (100 for
the developer loop, 200 for the reviewer loop) before a Complete reply
is accepted, the loop terminates in the distinguished Exceeded outcome —
recorded in the final log entry, never thrown (both embedded loops are
total functions) — and the terminal round runs none of the
Complete-path logic: the state is unchanged apart from the final log
write.  Moreover a loop whose replies never parse always ends in
Exceeded. -/
theorem C5_budget_exceeded :
    (∀ (o : DevOracle) (k s : Nat) (st : DevState), s > 100 →
      devLoop o k s st = .exceeded
        { st with logFiles := ("developer_final.txt", devExceededMsg) :: st.logFiles }) ∧
    (∀ (o : RevOracle) (k : Nat) (st : RevState), st.step > 200 →
      revLoop o k st = .exceeded (ctxWrite st "reviewer_final.txt" revExceededMsg)) ∧
    (∀ (o : DevOracle) (err raw : String), (∀ k, o.reply k = .malformed err raw) →
      ∀ (k s : Nat) (st : DevState), (devLoop o k s st).isExceeded = true) := by
  refine ⟨?_, ?_, ?_⟩
  · intro o k s st h
    rw [devLoop.eq_def, dif_pos h]
  · intro o k st h
    rw [revLoop.eq_def, dif_pos h]
  · intro o err raw hrep
    have aux : ∀ (n k s : Nat) (st : DevState), 101 - s ≤ n →
        (devLoop o k s st).isExceeded = true := by
      intro n
      induction n with
      | zero =>
        intro k s st hle
        have hs : s > 100 := by omega
        rw [devLoop.eq_def, dif_pos hs]
        rfl
      | succ n ih =>
        intro k s st hle
        by_cases hs : s > 100
        · rw [devLoop.eq_def, dif_pos hs]; rfl
        · rw [devLoop.eq_def, dif_neg hs, hrep k]
          exact ih (k + 1) (s + 1) _ (by omega)
    intro k s st
    exact aux (101 - s) k s st le_rfl

/-- Witness for `C5_budget_exceeded` at concrete over-budget states and a
concrete never-parsing oracle. -/
theorem C5_budget_exceeded_witness :
    (101 > 100 ∧
      devLoop devOracleMal 0 101 devInit0 = .exceeded
        { devInit0 with
            logFiles := ("developer_final.txt", devExceededMsg) :: devInit0.logFiles }) ∧
    (revInit201.step > 200 ∧
      revLoop revOracleMal 0 revInit201 =
        .exceeded (ctxWrite revInit201 "reviewer_final.txt" revExceededMsg)) ∧
    (devLoop devOracleMal 0 0 devInit0).isExceeded = true :=
  ⟨⟨by decide, C5_budget_exceeded.1 devOracleMal 0 101 devInit0 (by decide)⟩,
   ⟨by decide, C5_budget_exceeded.2.1 revOracleMal 0 revInit201 (by decide)⟩,
   C5_budget_exceeded.2.2 devOracleMal "Expecting value" "oops" (fun _ => rfl) 0 0 devInit0⟩

/-- C6: a round whose raw reply fails to parse as JSON executes no
command and changes nothing but the log (the conversation context, the
applied-file record and, for the reviewer, the shared prompt context are
untouched); the next instruction becomes a corrective message embedding
the parser error, and the loop retries. -/
theorem C6_parse_failure_retry :
    (∀ (o : DevOracle) (k s : Nat) (st : DevState) (err raw : String),
      s ≤ 100 → o.reply k = .malformed err raw →
      devLoop o k s st = devLoop o (k + 1) (s + 1)
        { st with
            logFiles := (s!"developer_{s}.txt", parseFailLog err raw) :: st.logFiles,
            currentRequest := parseFailReq err }) ∧
    (∀ (o : RevOracle) (k : Nat) (st : RevState) (err raw : String),
      st.step ≤ 200 → o.reply k = .malformed err raw →
      revLoop o k st = revLoop o (k + 1)
        { ctxWrite st "reviewer.txt" (parseFailLog err raw) with
            currentRequest := parseFailReq err }) := by
  constructor
  · intro o k s st err raw hs hrep
    have hng : ¬ s > 100 := by omega
    conv_lhs => rw [devLoop.eq_def]
    rw [dif_neg hng, hrep]
  · intro o k st err raw hs hrep
    have hng : ¬ st.step > 200 := by omega
    conv_lhs => rw [revLoop.eq_def]
    rw [dif_neg hng, hrep]

/-- Witness for `C6_parse_failure_retry` at a concrete malformed reply
for both loops. -/
theorem C6_parse_failure_retry_witness :
    ((0 : Nat) ≤ 100 ∧ devOracleMal.reply 0 = .malformed "Expecting value" "oops" ∧
      devLoop devOracleMal 0 0 devInit0 = devLoop devOracleMal 1 1
        { devInit0 with
            logFiles := (s!"developer_{(0 : Nat)}.txt",
              parseFailLog "Expecting value" "oops") :: devInit0.logFiles,
            currentRequest := parseFailReq "Expecting value" }) ∧
    (revInit0.step ≤ 200 ∧ revOracleMal.reply 0 = .malformed "Expecting value" "oops" ∧
      revLoop revOracleMal 0 revInit0 = revLoop revOracleMal 1
        { ctxWrite revInit0 "reviewer.txt" (parseFailLog "Expecting value" "oops") with
            currentRequest := parseFailReq "Expecting value" }) :=
  ⟨⟨by decide, rfl,
    C6_parse_failure_retry.1 devOracleMal 0 0 devInit0 "Expecting value" "oops"
      (by decide) rfl⟩,
   ⟨by decide, rfl,
    C6_parse_failure_retry.2 revOracleMal 0 revInit0 "Expecting value" "oops"
      (by decide) rfl⟩⟩

/-- C7: after a schema-valid Complete reviewer reply, the review is
marked finished exactly when the reply has zero error-severity comments,
and the summary stored under `REVIEW_SUMMARY` is built from exactly the
error-severity comments (path, line range, text) — comments of lower
severity never enter it. -/
theorem C7_convergence (o : RevOracle) (k : Nat) (st : RevState) (j : RevJson)
    (hs : st.step ≤ 200) (hrep : o.reply k = .parsed j)
    (hstat : j.status.getD "" = "complete")
    (hval : validateComments j.comments = none)
    (hrf : st.reviewFinished = false) :
    ∃ stF, revLoop o k st = .completed stF ∧
      (stF.reviewFinished = true ↔ errComments (commentsList j.comments) = []) ∧
      dictGet stF.promptContext "REVIEW_SUMMARY" =
        some (strIntercalate "\n" ((errComments (commentsList j.comments)).map formatComment)) := by
  have hng : ¬ st.step > 200 := by omega
  rw [revLoop.eq_def, dif_neg hng, hrep]
  simp only [hstat, hval, if_true]
  refine ⟨_, rfl, ?_, ?_⟩
  · cases hsum : errComments (commentsList j.comments) with
    | nil => simp [hsum, ctxWrite]
    | cons c0 cs0 => simp [hsum, ctxWrite, hrf]
  · cases hsum : errComments (commentsList j.comments) with
    | nil => simp [hsum, ctxWrite, dictGet_dictSet]
    | cons c0 cs0 => simp [hsum, ctxWrite, dictGet_dictSet]

/-- Witness for `C7_convergence` on a concrete Complete reply with no
comments. -/
theorem C7_convergence_witness :
    (revInit0.step ≤ 200 ∧
      revOracleEmpty.reply 0 = .parsed revJsonEmpty ∧
      revJsonEmpty.status.getD "" = "complete" ∧
      validateComments revJsonEmpty.comments = none ∧
      revInit0.reviewFinished = false) ∧
    (∃ stF, revLoop revOracleEmpty 0 revInit0 = .completed stF ∧
      (stF.reviewFinished = true ↔ errComments (commentsList revJsonEmpty.comments) = []) ∧
      dictGet stF.promptContext "REVIEW_SUMMARY" =
        some (strIntercalate "\n"
          ((errComments (commentsList revJsonEmpty.comments)).map formatComment))) :=
  ⟨⟨by decide, rfl, rfl, by decide, rfl⟩,
   C7_convergence revOracleEmpty 0 revInit0 revJsonEmpty (by decide) rfl rfl (by decide) rfl⟩

/-- C8 (corrected): the reviewer's comment validation never checks
`start_line ≤ end_line` nor non-negativity — a comment with reversed
bounds (5 > 2) and one with negative bounds both pass validation, and
the loop proceeds to the summary path instead of a corrective retry. -/
theorem C8_counterexample :
    validateComments (.list [.obj badOrderComment]) = none ∧
    badOrderComment.start_line = some (.jint 5) ∧
    badOrderComment.end_line = some (.jint 2) ∧
    ¬((5 : Int) ≤ 2) ∧
    validateComments (.list [.obj negLineComment]) = none ∧
    (revLoop revOracleBad 0 revInit0).isCompleted = true := by
  refine ⟨by decide, by decide, by decide, by decide, by decide, ?_⟩
  rw [revLoop.eq_def]
  simp +decide [revOracleBad, revInit0, ctxWrite, badOrderComment, RevOutcome.isCompleted]

/-- C8 (amended): every comment of a Complete reviewer reply is
validated to be an object carrying the keys path, start_line, end_line,
comment, severity, with severity in {info, warning, error} and with
start_line and end_line accepted by Python `int()` (negative and
unordered values included — no sign or ordering check exists); any
violation triggers the corrective-retry path with a new instruction
rather than terminating the loop or raising. -/
theorem C8_validation_amended :
    (∀ f : CommentsField, validateComments f = none ↔ commentsValid f = true) ∧
    (∀ (o : RevOracle) (k : Nat) (st : RevState) (j : RevJson) (msg : String),
      st.step ≤ 200 → o.reply k = .parsed j → j.status.getD "" = "complete" →
      validateComments j.comments = some msg →
      revLoop o k st = revLoop o (k + 1)
        { ctxWrite (ctxWrite st "reviewer.txt" (revRespLog j)) "reviewer.txt" msg with
            currentRequest :=
              msg ++ ". Please return a JSON object strictly following the schema." }) := by
  constructor
  · intro f
    cases f with
    | absent => simp [validateComments, commentsValid]
    | notList v => simp [validateComments, commentsValid]
    | list cs => simpa [validateComments, commentsValid] using validateList_none_iff cs 0
  · intro o k st j msg hs hrep hstat hval
    have hng : ¬ st.step > 200 := by omega
    conv_lhs => rw [revLoop.eq_def]
    rw [dif_neg hng, hrep]
    simp only [hstat, hval, if_true]

/-- Witness for `C8_validation_amended`: a non-list `comments` value is
rejected with the corrective retry, and the reversed-bounds comment
passes the characterized validation. -/
theorem C8_validation_amended_witness :
    (revInit0.step ≤ 200 ∧
      revOracleNotList.reply 0 = .parsed revJsonNotList ∧
      revJsonNotList.status.getD "" = "complete" ∧
      validateComments revJsonNotList.comments = some "\x27comments\x27 must be a list") ∧
    revLoop revOracleNotList 0 revInit0 = revLoop revOracleNotList 1
      { ctxWrite (ctxWrite revInit0 "reviewer.txt" (revRespLog revJsonNotList))
          "reviewer.txt" "\x27comments\x27 must be a list" with
          currentRequest := "\x27comments\x27 must be a list" ++
            ". Please return a JSON object strictly following the schema." } ∧
    (validateComments (.list [.obj badOrderComment]) = none ↔
      commentsValid (.list [.obj badOrderComment]) = true) :=
  ⟨⟨by decide, rfl, rfl, by decide⟩,
   C8_validation_amended.2 revOracleNotList 0 revInit0 revJsonNotList
     "\x27comments\x27 must be a list" (by decide) rfl rfl (by decide),
   C8_validation_amended.1 (.list [.obj badOrderComment])⟩

end Orchestrator
